import Mathlib

/-!
Verification of the StockMaster inventory server (src/server/index.js and the
Supabase migration's check_low_stock trigger function).

The embedding models the Mongo collections touched by the stock-mutation
endpoints as Lean lists, and each Express handler as a function from server
state to `Except String` of the new state.  Document ids are natural numbers
handed out by a counter; `created_at` timestamps are modelled by a logical
clock that ticks on every ledger append.  Quantities are integers (JS numbers
used integrally by the handlers).
-/

set_option maxHeartbeats 1000000

namespace StockMaster

/-- A document of the `Stock` collection (server/models/Stock.js):
one balance row per (product, warehouse) pair. -/
structure Stock where
  product_id : Nat
  warehouse_id : Nat
  quantity : Int
  deriving Repr, DecidableEq

/-- A document of the `StockLedger` collection (server/models/StockLedger.js). -/
structure StockLedger where
  product_id : Nat
  warehouse_id : Nat
  quantity_change : Int
  quantity_after : Int
  type : String
  reference_number : Option String
  created_at : Nat
  deriving Repr, DecidableEq

/-- A document of the `StockReceipt` collection (models/StockReceipt.js);
`status` defaults to "pending" at creation. -/
structure StockReceipt where
  id : Nat
  product_id : Nat
  warehouse_id : Nat
  quantity : Int
  status : String
  deriving Repr, DecidableEq

/-- A document of the `Delivery` collection (server/models/Delivery.js);
`status` is one of "Picked", "Packed", "Delivered". -/
structure Delivery where
  id : Nat
  delivery_number : String
  product_id : Nat
  warehouse_id : Nat
  quantity : Int
  status : String
  deriving Repr, DecidableEq

/-- The server state: the four collections the stock endpoints touch, an id
counter standing for Mongo ObjectId generation, and a logical clock for
`created_at` timestamps. -/
structure St where
  stock : List Stock
  ledger : List StockLedger
  receipts : List StockReceipt
  deliveries : List Delivery
  nextId : Nat
  now : Nat
  deriving Repr, DecidableEq

/-- The empty database. -/
def St.empty : St := ⟨[], [], [], [], 0, 0⟩

/-- `Stock.findOne({product_id, warehouse_id})`: first matching document. -/
def findStock (p w : Nat) (l : List Stock) : Option Stock :=
  l.find? (fun d => d.product_id == p && d.warehouse_id == w)

/-- Persisting a stock quantity: overwrite the first document matching the
pair, or (`new Stock(...).save()`) append a fresh document when none exists. -/
def saveStock (p w : Nat) (q : Int) : List Stock → List Stock
  | [] => [⟨p, w, q⟩]
  | d :: ds =>
    if d.product_id == p && d.warehouse_id == w then { d with quantity := q } :: ds
    else d :: saveStock p w q ds

/-- The balance the handlers see: `stockDoc ? stockDoc.quantity : 0`. -/
def getQty (p w : Nat) (l : List Stock) : Int :=
  match findStock p w l with
  | some d => d.quantity
  | none => 0

/-- `StockReceipt.findById(id)`. -/
def findReceipt (id : Nat) (l : List StockReceipt) : Option StockReceipt :=
  l.find? (fun r => r.id == id)

/-- Persist an updated receipt document (replace the one with its id). -/
def saveReceipt (r : StockReceipt) : List StockReceipt → List StockReceipt
  | [] => [r]
  | d :: ds => if d.id == r.id then r :: ds else d :: saveReceipt r ds

/-- `Delivery.findById(id)`. -/
def findDelivery (id : Nat) (l : List Delivery) : Option Delivery :=
  l.find? (fun d => d.id == id)

/-- Persist an updated delivery document (replace the one with its id). -/
def saveDelivery (d : Delivery) : List Delivery → List Delivery
  | [] => [d]
  | x :: xs => if x.id == d.id then d :: xs else x :: saveDelivery d xs

/-- Append a ledger document, stamping it with the logical clock. -/
def appendLedger (s : St) (p w : Nat) (change after : Int) (ty : String)
    (ref : Option String) : St :=
  { s with
    ledger := s.ledger ++
      [{ product_id := p, warehouse_id := w, quantity_change := change,
         quantity_after := after, type := ty, reference_number := ref,
         created_at := s.now }],
    now := s.now + 1 }

/-- POST /api/stock_receipts (index.js:295-312): save a pending receipt and
immediately add a ledger entry with quantity_change = quantity_after =
the receipt's quantity.  No Stock document is touched. -/
def stock_receipts_post (s : St) (p w : Nat) (q : Int) : Except String St :=
  let sr : StockReceipt := ⟨s.nextId, p, w, q, "pending"⟩
  let s1 := { s with receipts := s.receipts ++ [sr], nextId := s.nextId + 1 }
  .ok (appendLedger s1 p w q q "receipt" none)

/-- POST /api/stock_receipts/:id/complete (index.js:539-576): mark the receipt
completed (no status guard!), add its quantity to the stock balance (creating
the Stock document if absent), and append a `receipt` ledger entry carrying the
resulting balance. -/
def stock_receipts_complete (s : St) (id : Nat) : Except String St :=
  match findReceipt id s.receipts with
  | none => .error "Receipt not found"
  | some sr =>
    let s1 := { s with receipts := saveReceipt { sr with status := "completed" } s.receipts }
    match findStock sr.product_id sr.warehouse_id s1.stock with
    | some d =>
      let q' := d.quantity + sr.quantity
      let s2 := { s1 with stock := saveStock sr.product_id sr.warehouse_id q' s1.stock }
      .ok (appendLedger s2 sr.product_id sr.warehouse_id sr.quantity q' "receipt" none)
    | none =>
      let s2 := { s1 with stock := s1.stock ++ [⟨sr.product_id, sr.warehouse_id, sr.quantity⟩] }
      .ok (appendLedger s2 sr.product_id sr.warehouse_id sr.quantity sr.quantity "receipt" none)

/-- POST /api/stock_deliveries (index.js:331-380): validate quantity > 0 and
sufficient stock, then create the delivery order in "Picked" status.  No
balance or ledger effect. -/
def stock_deliveries_post (s : St) (num : String) (p w : Nat) (q : Int) :
    Except String St :=
  if q ≤ 0 then .error "Quantity must be greater than 0"
  else if getQty p w s.stock < q then .error "Insufficient stock"
  else .ok { s with deliveries := s.deliveries ++ [⟨s.nextId, num, p, w, q, "Picked"⟩],
                    nextId := s.nextId + 1 }

/-- POST /api/deliveries/:id/pack (index.js:383-408): only a Picked order can
be packed. -/
def deliveries_pack (s : St) (id : Nat) : Except String St :=
  match findDelivery id s.deliveries with
  | none => .error "Delivery not found"
  | some d =>
    if d.status ≠ "Picked" then .error "Delivery must be in Picked status to pack"
    else .ok { s with deliveries := saveDelivery { d with status := "Packed" } s.deliveries }

/-- POST /api/deliveries/:id/deliver (index.js:411-464): only a Packed order
can be delivered; re-checks available stock, then persists
`Math.max(0, quantity - delivery.quantity)`, appends a `delivery` ledger entry
and marks the order Delivered.  When no Stock document exists the handler
either reports insufficient stock (0 < quantity) or throws dereferencing the
null document; both surface as an error response. -/
def deliveries_deliver (s : St) (id : Nat) : Except String St :=
  match findDelivery id s.deliveries with
  | none => .error "Delivery not found"
  | some d =>
    if d.status ≠ "Packed" then .error "Delivery must be in Packed status to deliver"
    else
      match findStock d.product_id d.warehouse_id s.stock with
      | none =>
        .error (if 0 < d.quantity then "Insufficient stock" else "Failed to deliver")
      | some doc =>
        if doc.quantity < d.quantity then .error "Insufficient stock"
        else
          let q' := max 0 (doc.quantity - d.quantity)
          let s1 := { s with stock := saveStock d.product_id d.warehouse_id q' s.stock }
          let s2 := appendLedger s1 d.product_id d.warehouse_id (-d.quantity) q'
            "delivery" (some d.delivery_number)
          .ok { s2 with deliveries := saveDelivery { d with status := "Delivered" } s2.deliveries }

/-- DELETE /api/deliveries/:id (index.js:467-485): delivered orders cannot be
deleted; otherwise remove the order (no balance or ledger effect). -/
def deliveries_delete (s : St) (id : Nat) : Except String St :=
  match findDelivery id s.deliveries with
  | none => .error "Delivery not found"
  | some d =>
    if d.status = "Delivered" then .error "Cannot delete delivered orders"
    else .ok { s with deliveries := s.deliveries.eraseP (fun x => x.id == id) }

/-- POST /api/stock_transfers (index.js:488-516): subtract from the source
balance with a zero floor (creating a zero-quantity document when absent), add
to the destination balance (creating the document with the quantity when
absent), then append a `transfer_out` and a `transfer_in` ledger entry.  No
validation: the handler always succeeds. -/
def stock_transfers_post (s : St) (p fromW toW : Nat) (q : Int) : Except String St :=
  let fromStep :=
    match findStock p fromW s.stock with
    | some d =>
      let q' := max 0 (d.quantity - q)
      ({ s with stock := saveStock p fromW q' s.stock }, q')
    | none => ({ s with stock := s.stock ++ [(⟨p, fromW, 0⟩ : Stock)] }, (0 : Int))
  let s1 := fromStep.1
  let toStep :=
    match findStock p toW s1.stock with
    | some d =>
      let q' := d.quantity + q
      ({ s1 with stock := saveStock p toW q' s1.stock }, q')
    | none => ({ s1 with stock := s1.stock ++ [(⟨p, toW, q⟩ : Stock)] }, q)
  let s2 := appendLedger toStep.1 p fromW (-q) fromStep.2 "transfer_out" none
  .ok (appendLedger s2 p toW q toStep.2 "transfer_in" none)

/-- POST /api/stock_adjustments (index.js:519-536): apply the signed change to
the balance (creating the document when absent) and append an `adjustment`
ledger entry.  The handler never reads or validates a reason field; the
always-succeeding body ignores it. -/
def stock_adjustments_post (s : St) (p w : Nat) (change : Int)
    (reason : Option String) : Except String St :=
  let _ := reason
  match findStock p w s.stock with
  | some d =>
    let q' := d.quantity + change
    let s1 := { s with stock := saveStock p w q' s.stock }
    .ok (appendLedger s1 p w change q' "adjustment" none)
  | none =>
    let s1 := { s with stock := s.stock ++ [⟨p, w, change⟩] }
    .ok (appendLedger s1 p w change change "adjustment" none)

/-- The stock operations of the server, as one alphabet of events. -/
inductive Op
  | createReceipt (p w : Nat) (q : Int)
  | completeReceipt (id : Nat)
  | createDelivery (num : String) (p w : Nat) (q : Int)
  | pack (id : Nat)
  | deliver (id : Nat)
  | deleteDelivery (id : Nat)
  | transfer (p fromW toW : Nat) (q : Int)
  | adjust (p w : Nat) (change : Int) (reason : Option String)
  deriving Repr, DecidableEq

/-- Dispatch an operation to its handler. -/
def stepE (s : St) : Op → Except String St
  | .createReceipt p w q => stock_receipts_post s p w q
  | .completeReceipt id => stock_receipts_complete s id
  | .createDelivery num p w q => stock_deliveries_post s num p w q
  | .pack id => deliveries_pack s id
  | .deliver id => deliveries_deliver s id
  | .deleteDelivery id => deliveries_delete s id
  | .transfer p f t q => stock_transfers_post s p f t q
  | .adjust p w c r => stock_adjustments_post s p w c r

/-- A rejected request leaves the database unchanged. -/
def step (s : St) (op : Op) : St :=
  match stepE s op with
  | .ok s' => s'
  | .error _ => s

/-- Run a sequence of operations from a state. -/
def run (s : St) : List Op → St
  | [] => s
  | op :: ops => run (step s op) ops

/-- Sum of the `quantity_change` values of the ledger entries of one
(product, warehouse) pair. -/
def ledgerSum (p w : Nat) (s : St) : Int :=
  (s.ledger.filter (fun e => e.product_id == p && e.warehouse_id == w)).foldl
    (fun a e => a + e.quantity_change) 0

/-- Whether a handler accepted the request (HTTP 2xx) rather than erroring. -/
def isOk : Except String St → Bool
  | .ok _ => true
  | .error _ => false

/-! ### Basic lemmas about the balance store -/

theorem findStock_cons (a b : Nat) (d : Stock) (ds : List Stock) :
    findStock a b (d :: ds) =
      if d.product_id = a ∧ d.warehouse_id = b then some d else findStock a b ds := by
  have hiff : ((d.product_id == a && d.warehouse_id == b) = true) ↔
      (d.product_id = a ∧ d.warehouse_id = b) := by simp
  by_cases h : d.product_id = a ∧ d.warehouse_id = b
  · simp [findStock, List.find?, hiff.mpr h, h]
  · have hb : (d.product_id == a && d.warehouse_id == b) = false := by
      cases hb2 : (d.product_id == a && d.warehouse_id == b)
      · rfl
      · exact absurd (hiff.mp hb2) h
    simp [findStock, List.find?, hb, h]

theorem getQty_cons (a b : Nat) (d : Stock) (ds : List Stock) :
    getQty a b (d :: ds) =
      if d.product_id = a ∧ d.warehouse_id = b then d.quantity else getQty a b ds := by
  unfold getQty
  rw [findStock_cons]
  by_cases h : d.product_id = a ∧ d.warehouse_id = b <;> simp [h]

theorem saveStock_cons (p w : Nat) (q : Int) (d : Stock) (ds : List Stock) :
    saveStock p w q (d :: ds) =
      if d.product_id = p ∧ d.warehouse_id = w then { d with quantity := q } :: ds
      else d :: saveStock p w q ds := by
  have hiff : ((d.product_id == p && d.warehouse_id == w) = true) ↔
      (d.product_id = p ∧ d.warehouse_id = w) := by simp
  by_cases h : d.product_id = p ∧ d.warehouse_id = w
  · simp [saveStock, hiff.mpr h, h]
  · have hb : (d.product_id == p && d.warehouse_id == w) = false := by
      cases hb2 : (d.product_id == p && d.warehouse_id == w)
      · rfl
      · exact absurd (hiff.mp hb2) h
    simp [saveStock, hb, h]

theorem getQty_nil (a b : Nat) : getQty a b [] = 0 := rfl

theorem getQty_saveStock (a b p w : Nat) (q : Int) (l : List Stock) :
    getQty a b (saveStock p w q l) = if a = p ∧ b = w then q else getQty a b l := by
  induction l with
  | nil =>
    show getQty a b [⟨p, w, q⟩] = _
    rw [getQty_cons]
    dsimp only
    split_ifs <;> first | rfl | omega
  | cons d ds ih =>
    rw [saveStock_cons]
    by_cases hd : d.product_id = p ∧ d.warehouse_id = w
    · rw [if_pos hd]
      rw [getQty_cons, getQty_cons]
      dsimp only
      split_ifs <;> first | rfl | omega
    · rw [if_neg hd]
      rw [getQty_cons, getQty_cons, ih]
      split_ifs <;> first | rfl | omega

theorem getQty_append_absent (a b p w : Nat) (q : Int) (l : List Stock)
    (h : findStock p w l = none) :
    getQty a b (l ++ [(⟨p, w, q⟩ : Stock)]) =
      if a = p ∧ b = w then q else getQty a b l := by
  induction l with
  | nil =>
    show getQty a b [⟨p, w, q⟩] = _
    rw [getQty_cons]
    dsimp only
    split_ifs <;> first | rfl | omega
  | cons d ds ih =>
    rw [findStock_cons] at h
    by_cases hd : d.product_id = p ∧ d.warehouse_id = w
    · rw [if_pos hd] at h
      exact absurd h (by simp)
    · rw [if_neg hd] at h
      show getQty a b (d :: (ds ++ [(⟨p, w, q⟩ : Stock)])) = _
      rw [getQty_cons, getQty_cons, ih h]
      split_ifs <;> first | rfl | omega

theorem getQty_absent (p w : Nat) (l : List Stock) (h : findStock p w l = none) :
    getQty p w l = 0 := by
  simp [getQty, h]

theorem getQty_findStock_some (p w : Nat) (l : List Stock) (d : Stock)
    (h : findStock p w l = some d) : getQty p w l = d.quantity := by
  simp [getQty, h]

/-! ### Lemmas about delivery and receipt lookup -/

theorem findDelivery_cons (i : Nat) (d : Delivery) (ds : List Delivery) :
    findDelivery i (d :: ds) = if d.id = i then some d else findDelivery i ds := by
  by_cases h : d.id = i
  · simp [findDelivery, List.find?, h]
  · have hb : (d.id == i) = false := by simpa using h
    simp [findDelivery, List.find?, hb, h]

theorem findDelivery_some_id (i : Nat) (l : List Delivery) (d : Delivery)
    (h : findDelivery i l = some d) : d.id = i := by
  have := List.find?_some h
  simpa using this

theorem findDelivery_saveDelivery (i : Nat) (l : List Delivery) (d' : Delivery)
    (h : findDelivery i l ≠ none) (hid : d'.id = i) :
    findDelivery i (saveDelivery d' l) = some d' := by
  induction l with
  | nil => exact absurd rfl h
  | cons x xs ih =>
    by_cases hx : x.id = d'.id
    · have hb : (x.id == d'.id) = true := by simpa using hx
      simp only [saveDelivery, hb, if_pos]
      rw [findDelivery_cons, if_pos hid]
    · have hb : (x.id == d'.id) = false := by simpa using hx
      simp only [saveDelivery, hb, Bool.false_eq_true, if_false]
      rw [findDelivery_cons, if_neg (by omega : ¬x.id = i)]
      rw [findDelivery_cons, if_neg (by omega : ¬x.id = i)] at h
      exact ih h

theorem findReceipt_append (i : Nat) (l : List StockReceipt) (x : StockReceipt)
    (h : ∀ r ∈ l, r.id ≠ i) (hx : x.id = i) :
    findReceipt i (l ++ [x]) = some x := by
  induction l with
  | nil => simp [findReceipt, List.find?, hx]
  | cons r rs ih =>
    have hr : (r.id == i) = false := by simpa using h r (List.mem_cons_self r rs)
    show findReceipt i (r :: (rs ++ [x])) = some x
    simp only [findReceipt, List.find?, hr]
    exact ih fun a ha => h a (List.mem_cons_of_mem r ha)

/-! ### Claim theorems -/

/-- C1: the spec's round-trip law — the final Balance quantity of a
(product, warehouse) pair always equals the sum of the ledger
`quantity_change` values for that pair — fails on the code.  Creating one
pending stock receipt (quantity 5) from the empty state performs no balance
mutation, yet records a `receipt` ledger entry with quantity_change 5, so the
balance is 0 while the ledger sum is 5. -/
theorem c1_sum_law_fails_on_pending_receipt :
    getQty 1 2 (run St.empty [Op.createReceipt 1 2 5]).stock ≠
      ledgerSum 1 2 (run St.empty [Op.createReceipt 1 2 5]) ∧
    getQty 1 2 (run St.empty [Op.createReceipt 1 2 5]).stock = 0 ∧
    ledgerSum 1 2 (run St.empty [Op.createReceipt 1 2 5]) = 5 := by
  refine ⟨?_, ?_, ?_⟩ <;> decide

/-- C3: completing a stock receipt is not effective exactly once.  The
completion handler has no status guard: creating a receipt of quantity 5 and
completing it twice credits the balance twice (10 instead of 5) and appends a
third ledger entry, so the second completion is neither rejected nor a
no-op. -/
theorem c3_double_completion_double_credits :
    getQty 1 2 (run St.empty [Op.createReceipt 1 2 5, Op.completeReceipt 0]).stock = 5 ∧
    (run St.empty [Op.createReceipt 1 2 5, Op.completeReceipt 0]).ledger.length = 2 ∧
    getQty 1 2 (run St.empty
      [Op.createReceipt 1 2 5, Op.completeReceipt 0, Op.completeReceipt 0]).stock = 10 ∧
    (run St.empty
      [Op.createReceipt 1 2 5, Op.completeReceipt 0, Op.completeReceipt 0]).ledger.length = 3 ∧
    isOk (stepE (run St.empty [Op.createReceipt 1 2 5, Op.completeReceipt 0])
      (Op.completeReceipt 0)) = true := by
  refine ⟨?_, ?_, ?_, ?_, ?_⟩ <;> decide

/-- C9: creating a pending stock receipt leaves the balance store untouched
but appends one `receipt` ledger entry whose quantity_change and
quantity_after both equal the receipt's quantity (regardless of the current
balance), and completing that receipt afterwards appends a second `receipt`
ledger entry. -/
theorem c9_pending_receipt_ledger (s : St)
    (hwf : ∀ r ∈ s.receipts, r.id < s.nextId) (p w : Nat) (q : Int) :
    (step s (.createReceipt p w q)).stock = s.stock ∧
    (∃ e : StockLedger, (step s (.createReceipt p w q)).ledger = s.ledger ++ [e] ∧
      e.type = "receipt" ∧ e.quantity_change = q ∧ e.quantity_after = q) ∧
    (∃ e2 : StockLedger,
      (step (step s (.createReceipt p w q)) (.completeReceipt s.nextId)).ledger =
        (step s (.createReceipt p w q)).ledger ++ [e2] ∧ e2.type = "receipt") := by
  refine ⟨rfl, ⟨_, rfl, rfl, rfl, rfl⟩, ?_⟩
  have hfind : findReceipt s.nextId
      (s.receipts ++ [(⟨s.nextId, p, w, q, "pending"⟩ : StockReceipt)]) =
      some ⟨s.nextId, p, w, q, "pending"⟩ :=
    findReceipt_append _ _ _ (fun r hr => Nat.ne_of_lt (hwf r hr)) rfl
  cases hfs : findStock p w s.stock with
  | none =>
    simp only [step, stepE, stock_receipts_post, stock_receipts_complete, appendLedger,
      hfind, hfs]
    exact ⟨_, rfl, rfl⟩
  | some d =>
    simp only [step, stepE, stock_receipts_post, stock_receipts_complete, appendLedger,
      hfind, hfs]
    exact ⟨_, rfl, rfl⟩

/-- C9 witness: instantiate the frame/ledger theorem on the empty database
with a receipt of quantity 7 for product 3 at warehouse 4. -/
theorem c9_pending_receipt_ledger_witness :
    (step St.empty (.createReceipt 3 4 7)).stock = St.empty.stock ∧
    (∃ e : StockLedger, (step St.empty (.createReceipt 3 4 7)).ledger =
        St.empty.ledger ++ [e] ∧
      e.type = "receipt" ∧ e.quantity_change = 7 ∧ e.quantity_after = 7) ∧
    (∃ e2 : StockLedger,
      (step (step St.empty (.createReceipt 3 4 7)) (.completeReceipt St.empty.nextId)).ledger =
        (step St.empty (.createReceipt 3 4 7)).ledger ++ [e2] ∧ e2.type = "receipt") :=
  c9_pending_receipt_ledger St.empty (by intro r hr; cases hr) 3 4 7

/-- C4: a transfer of quantity Q between distinct warehouses decreases the
source balance by exactly Q floored at zero, increases the destination
balance by exactly Q, and appends exactly two ledger entries — one
`transfer_out` and one `transfer_in` — each carrying quantity Q. -/
theorem c4_transfer_effect (s : St) (p f t : Nat) (q : Int)
    (hft : f ≠ t) (hq : 0 ≤ q) :
    getQty p f (step s (.transfer p f t q)).stock =
      max 0 (getQty p f s.stock - q) ∧
    getQty p t (step s (.transfer p f t q)).stock = getQty p t s.stock + q ∧
    ∃ eOut eIn : StockLedger,
      (step s (.transfer p f t q)).ledger = s.ledger ++ [eOut, eIn] ∧
      eOut.type = "transfer_out" ∧ eOut.product_id = p ∧ eOut.warehouse_id = f ∧
      eOut.quantity_change = -q ∧
      eIn.type = "transfer_in" ∧ eIn.product_id = p ∧ eIn.warehouse_id = t ∧
      eIn.quantity_change = q := by
  have hne : ¬(p = p ∧ t = f) := fun h => hft h.2.symm
  have hne' : ¬(p = p ∧ f = t) := fun h => hft h.2
  cases hf : findStock p f s.stock with
  | some d =>
    have hqf : getQty p f s.stock = d.quantity := getQty_findStock_some _ _ _ _ hf
    cases ht : findStock p t (saveStock p f (max 0 (d.quantity - q)) s.stock) with
    | some d2 =>
      have hqt : getQty p t s.stock = d2.quantity := by
        have := getQty_findStock_some _ _ _ _ ht
        rwa [getQty_saveStock, if_neg hne] at this
      refine ⟨?_, ?_, ⟨p, f, -q, max 0 (d.quantity - q), "transfer_out", none, s.now⟩,
        ⟨p, t, q, d2.quantity + q, "transfer_in", none, s.now + 1⟩,
        ?_, rfl, rfl, rfl, rfl, rfl, rfl, rfl, rfl⟩
      · simp only [step, stepE, stock_transfers_post, appendLedger, hf, ht]
        rw [getQty_saveStock, if_neg hne', getQty_saveStock, if_pos ⟨rfl, rfl⟩, hqf]
      · simp only [step, stepE, stock_transfers_post, appendLedger, hf, ht]
        rw [getQty_saveStock, if_pos ⟨rfl, rfl⟩, hqt]
      · simp only [step, stepE, stock_transfers_post, appendLedger, hf, ht]
        simp [List.append_assoc]
    | none =>
      have hqt : getQty p t s.stock = 0 := by
        have := getQty_absent _ _ _ ht
        rwa [getQty_saveStock, if_neg hne] at this
      refine ⟨?_, ?_, ⟨p, f, -q, max 0 (d.quantity - q), "transfer_out", none, s.now⟩,
        ⟨p, t, q, q, "transfer_in", none, s.now + 1⟩,
        ?_, rfl, rfl, rfl, rfl, rfl, rfl, rfl, rfl⟩
      · simp only [step, stepE, stock_transfers_post, appendLedger, hf, ht]
        rw [getQty_append_absent _ _ _ _ _ _ ht, if_neg hne',
          getQty_saveStock, if_pos ⟨rfl, rfl⟩, hqf]
      · simp only [step, stepE, stock_transfers_post, appendLedger, hf, ht]
        rw [getQty_append_absent _ _ _ _ _ _ ht, if_pos ⟨rfl, rfl⟩, hqt]
        omega
      · simp only [step, stepE, stock_transfers_post, appendLedger, hf, ht]
        simp [List.append_assoc]
  | none =>
    have hqf : getQty p f s.stock = 0 := getQty_absent _ _ _ hf
    have hmax : max 0 (getQty p f s.stock - q) = 0 := by rw [hqf]; omega
    cases ht : findStock p t (s.stock ++ [(⟨p, f, 0⟩ : Stock)]) with
    | some d2 =>
      have hqt : getQty p t s.stock = d2.quantity := by
        have := getQty_findStock_some _ _ _ _ ht
        rwa [getQty_append_absent _ _ _ _ _ _ hf, if_neg hne] at this
      refine ⟨?_, ?_, ⟨p, f, -q, 0, "transfer_out", none, s.now⟩,
        ⟨p, t, q, d2.quantity + q, "transfer_in", none, s.now + 1⟩,
        ?_, rfl, rfl, rfl, rfl, rfl, rfl, rfl, rfl⟩
      · simp only [step, stepE, stock_transfers_post, appendLedger, hf, ht]
        rw [getQty_saveStock, if_neg hne', getQty_append_absent _ _ _ _ _ _ hf,
          if_pos ⟨rfl, rfl⟩, hmax]
      · simp only [step, stepE, stock_transfers_post, appendLedger, hf, ht]
        rw [getQty_saveStock, if_pos ⟨rfl, rfl⟩, hqt]
      · simp only [step, stepE, stock_transfers_post, appendLedger, hf, ht]
        simp [List.append_assoc]
    | none =>
      have hqt : getQty p t s.stock = 0 := by
        have := getQty_absent _ _ _ ht
        rwa [getQty_append_absent _ _ _ _ _ _ hf, if_neg hne] at this
      refine ⟨?_, ?_, ⟨p, f, -q, 0, "transfer_out", none, s.now⟩,
        ⟨p, t, q, q, "transfer_in", none, s.now + 1⟩,
        ?_, rfl, rfl, rfl, rfl, rfl, rfl, rfl, rfl⟩
      · simp only [step, stepE, stock_transfers_post, appendLedger, hf, ht]
        rw [getQty_append_absent _ _ _ _ _ _ ht, if_neg hne',
          getQty_append_absent _ _ _ _ _ _ hf, if_pos ⟨rfl, rfl⟩, hmax]
      · simp only [step, stepE, stock_transfers_post, appendLedger, hf, ht]
        rw [getQty_append_absent _ _ _ _ _ _ ht, if_pos ⟨rfl, rfl⟩, hqt]
        omega
      · simp only [step, stepE, stock_transfers_post, appendLedger, hf, ht]
        simp [List.append_assoc]

/-- C4 witness: transfer 4 units of product 1 from warehouse 10 (holding 9)
to warehouse 11 (empty). -/
theorem c4_transfer_effect_witness :
    (10 : Nat) ≠ 11 ∧ (0 : Int) ≤ 4 ∧
    (getQty 1 10 (step ⟨[⟨1, 10, 9⟩], [], [], [], 0, 0⟩ (.transfer 1 10 11 4)).stock =
      max 0 (getQty 1 10 (⟨[⟨1, 10, 9⟩], [], [], [], 0, 0⟩ : St).stock - 4) ∧
    getQty 1 11 (step ⟨[⟨1, 10, 9⟩], [], [], [], 0, 0⟩ (.transfer 1 10 11 4)).stock =
      getQty 1 11 (⟨[⟨1, 10, 9⟩], [], [], [], 0, 0⟩ : St).stock + 4 ∧
    ∃ eOut eIn : StockLedger,
      (step ⟨[⟨1, 10, 9⟩], [], [], [], 0, 0⟩ (.transfer 1 10 11 4)).ledger =
        (⟨[⟨1, 10, 9⟩], [], [], [], 0, 0⟩ : St).ledger ++ [eOut, eIn] ∧
      eOut.type = "transfer_out" ∧ eOut.product_id = 1 ∧ eOut.warehouse_id = 10 ∧
      eOut.quantity_change = -4 ∧
      eIn.type = "transfer_in" ∧ eIn.product_id = 1 ∧ eIn.warehouse_id = 11 ∧
      eIn.quantity_change = 4) :=
  ⟨by decide, by decide,
    c4_transfer_effect ⟨[⟨1, 10, 9⟩], [], [], [], 0, 0⟩ 1 10 11 4 (by decide) (by decide)⟩

/-- C5: whenever the deliver step succeeds, the stored balance of the order's
(product, warehouse) pair becomes the previous quantity minus the order
quantity clamped below at zero, and in particular is never negative. -/
theorem c5_deliver_never_negative (s s' : St) (id : Nat)
    (h : stepE s (.deliver id) = .ok s') :
    ∃ d : Delivery, findDelivery id s.deliveries = some d ∧
      getQty d.product_id d.warehouse_id s'.stock =
        max 0 (getQty d.product_id d.warehouse_id s.stock - d.quantity) ∧
      0 ≤ getQty d.product_id d.warehouse_id s'.stock := by
  cases hd : findDelivery id s.deliveries with
  | none =>
    simp only [stepE, deliveries_deliver, hd] at h
    exact Except.noConfusion h
  | some d =>
    simp only [stepE, deliveries_deliver, hd] at h
    by_cases hst : d.status ≠ "Packed"
    · rw [if_pos hst] at h; exact Except.noConfusion h
    · rw [if_neg hst] at h
      cases hfs : findStock d.product_id d.warehouse_id s.stock with
      | none =>
        simp only [hfs] at h
        exact Except.noConfusion h
      | some doc =>
        simp only [hfs] at h
        by_cases hins : doc.quantity < d.quantity
        · rw [if_pos hins] at h; exact Except.noConfusion h
        · rw [if_neg hins] at h
          injection h with h2
          subst h2
          refine ⟨d, rfl, ?_, ?_⟩
          · show getQty d.product_id d.warehouse_id
              (saveStock d.product_id d.warehouse_id
                (max 0 (doc.quantity - d.quantity)) s.stock) = _
            rw [getQty_saveStock, if_pos ⟨rfl, rfl⟩,
              getQty_findStock_some _ _ _ _ hfs]
          · show 0 ≤ getQty d.product_id d.warehouse_id
              (saveStock d.product_id d.warehouse_id
                (max 0 (doc.quantity - d.quantity)) s.stock)
            rw [getQty_saveStock, if_pos ⟨rfl, rfl⟩]
            exact le_max_left 0 _

/-- C5 witness: delivering a Packed order of 8 units against a balance of 10
leaves balance 2 = max 0 (10 - 8) ≥ 0. -/
theorem c5_deliver_never_negative_witness :
    ∃ d : Delivery,
      findDelivery 0 (⟨[⟨1, 2, 10⟩], [], [],
        [⟨0, "D1", 1, 2, 8, "Packed"⟩], 1, 0⟩ : St).deliveries = some d ∧
      getQty d.product_id d.warehouse_id
          (step ⟨[⟨1, 2, 10⟩], [], [], [⟨0, "D1", 1, 2, 8, "Packed"⟩], 1, 0⟩
            (.deliver 0)).stock =
        max 0 (getQty d.product_id d.warehouse_id
          (⟨[⟨1, 2, 10⟩], [], [], [⟨0, "D1", 1, 2, 8, "Packed"⟩], 1, 0⟩ : St).stock
            - d.quantity) ∧
      0 ≤ getQty d.product_id d.warehouse_id
          (step ⟨[⟨1, 2, 10⟩], [], [], [⟨0, "D1", 1, 2, 8, "Packed"⟩], 1, 0⟩
            (.deliver 0)).stock :=
  c5_deliver_never_negative _ _ 0 rfl

/-- C6: the delivery workflow state machine rejects every illegal transition:
Pack when the order is not Picked (hence also a second Pack in a row),
Deliver when the order is not Packed, and Delete when the order is
Delivered. -/
theorem c6_workflow_guards (s : St) (id : Nat) (d : Delivery)
    (h : findDelivery id s.deliveries = some d) :
    (d.status ≠ "Picked" →
      stepE s (.pack id) = .error "Delivery must be in Picked status to pack") ∧
    (d.status ≠ "Packed" →
      stepE s (.deliver id) = .error "Delivery must be in Packed status to deliver") ∧
    (d.status = "Delivered" →
      stepE s (.deleteDelivery id) = .error "Cannot delete delivered orders") ∧
    (∀ s', stepE s (.pack id) = .ok s' →
      stepE s' (.pack id) = .error "Delivery must be in Picked status to pack") := by
  refine ⟨?_, ?_, ?_, ?_⟩
  · intro hst
    simp only [stepE, deliveries_pack, h, if_pos hst]
  · intro hst
    simp only [stepE, deliveries_deliver, h, if_pos hst]
  · intro hst
    simp only [stepE, deliveries_delete, h, if_pos hst]
  · intro s' hok
    simp only [stepE, deliveries_pack, h] at hok
    by_cases hst : d.status ≠ "Picked"
    · rw [if_pos hst] at hok; exact Except.noConfusion hok
    · rw [if_neg hst] at hok
      injection hok with h2
      subst h2
      have hid : ({ d with status := "Packed" } : Delivery).id = id :=
        findDelivery_some_id id s.deliveries d h
      have hfind2 : findDelivery id
          (saveDelivery { d with status := "Packed" } s.deliveries) =
          some { d with status := "Packed" } :=
        findDelivery_saveDelivery id s.deliveries _
          (by rw [h]; exact fun hc => by cases hc) hid
      simp only [stepE, deliveries_pack, hfind2]
      rw [if_pos (show ({ d with status := "Packed" } : Delivery).status ≠ "Picked" by
        show ("Packed" : String) ≠ "Picked"
        decide)]

/-- C6 witness: a Delivered order is rejected by Pack, Deliver and Delete. -/
theorem c6_workflow_guards_witness :
    (("Delivered" : String) ≠ "Picked" →
      stepE ⟨[], [], [], [⟨0, "D1", 1, 2, 3, "Delivered"⟩], 1, 0⟩ (.pack 0) =
        .error "Delivery must be in Picked status to pack") ∧
    (("Delivered" : String) ≠ "Packed" →
      stepE ⟨[], [], [], [⟨0, "D1", 1, 2, 3, "Delivered"⟩], 1, 0⟩ (.deliver 0) =
        .error "Delivery must be in Packed status to deliver") ∧
    (("Delivered" : String) = "Delivered" →
      stepE ⟨[], [], [], [⟨0, "D1", 1, 2, 3, "Delivered"⟩], 1, 0⟩ (.deleteDelivery 0) =
        .error "Cannot delete delivered orders") ∧
    (∀ s', stepE ⟨[], [], [], [⟨0, "D1", 1, 2, 3, "Delivered"⟩], 1, 0⟩ (.pack 0) = .ok s' →
      stepE s' (.pack 0) = .error "Delivery must be in Picked status to pack") :=
  c6_workflow_guards ⟨[], [], [], [⟨0, "D1", 1, 2, 3, "Delivered"⟩], 1, 0⟩ 0
    ⟨0, "D1", 1, 2, 3, "Delivered"⟩ rfl

/-- C8 counterexample: an adjustment request carrying no reason at all is
accepted by the handler and its full effect occurs — balance 0 becomes 5 and
an `adjustment` ledger entry is appended — refuting the claim that such a
request is rejected. -/
theorem c8_counterexample_no_reason_accepted :
    isOk (stepE St.empty (.adjust 1 2 5 none)) = true ∧
    getQty 1 2 (step St.empty (.adjust 1 2 5 none)).stock = 5 ∧
    (step St.empty (.adjust 1 2 5 none)).ledger.length = 1 := by
  refine ⟨?_, ?_, ?_⟩ <;> decide

/-- C8 amended: the adjustment handler performs no reason validation — every
adjustment request is accepted, and its effect (signed balance delta and one
`adjustment` ledger entry) occurs whether or not a reason is supplied. -/
theorem c8_adjustment_ignores_reason (s : St) (p w : Nat) (c : Int)
    (r : Option String) :
    isOk (stepE s (.adjust p w c r)) = true ∧
    getQty p w (step s (.adjust p w c r)).stock = getQty p w s.stock + c ∧
    ∃ e : StockLedger, (step s (.adjust p w c r)).ledger = s.ledger ++ [e] ∧
      e.type = "adjustment" ∧ e.quantity_change = c ∧
      e.quantity_after = getQty p w s.stock + c := by
  cases hfs : findStock p w s.stock with
  | some d =>
    have hq : getQty p w s.stock = d.quantity := getQty_findStock_some _ _ _ _ hfs
    refine ⟨?_, ?_, ⟨p, w, c, d.quantity + c, "adjustment", none, s.now⟩, ?_, rfl, rfl, ?_⟩
    · simp only [stepE, stock_adjustments_post, hfs, isOk]
    · simp only [step, stepE, stock_adjustments_post, appendLedger, hfs]
      rw [getQty_saveStock, if_pos ⟨rfl, rfl⟩, hq]
    · simp only [step, stepE, stock_adjustments_post, appendLedger, hfs]
    · show d.quantity + c = getQty p w s.stock + c
      rw [hq]
  | none =>
    have hq : getQty p w s.stock = 0 := getQty_absent _ _ _ hfs
    refine ⟨?_, ?_, ⟨p, w, c, c, "adjustment", none, s.now⟩, ?_, rfl, rfl, ?_⟩
    · simp only [stepE, stock_adjustments_post, hfs, isOk]
    · simp only [step, stepE, stock_adjustments_post, appendLedger, hfs]
      rw [getQty_append_absent _ _ _ _ _ _ hfs, if_pos ⟨rfl, rfl⟩, hq]
      omega
    · simp only [step, stepE, stock_adjustments_post, appendLedger, hfs]
    · show c = getQty p w s.stock + c
      rw [hq]
      omega

/-! ### The low-stock alert trigger (Supabase migration, check_low_stock) -/

/-- A row of the `products` table as read by the trigger (only the columns it
uses). -/
structure ProductRow where
  id : Nat
  reorder_level : Int
  deriving Repr, DecidableEq

/-- A row of the `low_stock_alerts` table (columns the trigger reads or
writes). -/
structure LowStockAlert where
  product_id : Nat
  warehouse_id : Nat
  current_quantity : Int
  reorder_level : Int
  is_acknowledged : Bool
  deriving Repr, DecidableEq

/-- The `check_low_stock` trigger function
(supabase/migrations/..._create_stockmaster_schema.sql): after a stock row
write with NEW = (p, w, qty), insert an alert row when the product exists,
qty ≤ reorder_level, reorder_level > 0, and no unacknowledged alert for the
same (product, warehouse) pair already exists.  (The `NEW.quantity IS NOT
NULL` guard is vacuous here since the embedding's quantities are total.) -/
def check_low_stock (products : List ProductRow) (alerts : List LowStockAlert)
    (p w : Nat) (qty : Int) : List LowStockAlert :=
  match products.find? (fun r => r.id == p) with
  | none => alerts
  | some pr =>
    if qty ≤ pr.reorder_level ∧ 0 < pr.reorder_level ∧
        (alerts.any (fun a =>
          a.product_id == p && a.warehouse_id == w && a.is_acknowledged == false)) = false
    then alerts ++ [⟨p, w, qty, pr.reorder_level, false⟩]
    else alerts

/-- C7 counterexample: product 1 has reorder level 5 and an unacknowledged
alert already exists for (product 1, warehouse 2); a stock write bringing the
balance to 3 satisfies 3 ≤ 5 and 5 > 0, yet the trigger's dedup clause
suppresses the insert, so no alert record is created — refuting the "when"
direction of the claim. -/
theorem c7_counterexample_dedup_suppresses_alert :
    check_low_stock [⟨1, 5⟩] [⟨1, 2, 4, 5, false⟩] 1 2 3 = [⟨1, 2, 4, 5, false⟩] ∧
    (3 : Int) ≤ 5 ∧ (0 : Int) < 5 := by
  refine ⟨?_, ?_, ?_⟩ <;> decide

/-- C7 amended: an alert row is inserted when, and only when, the product
exists, the written quantity is ≤ its reorder level, the reorder level is
strictly positive, and no unacknowledged alert for the same
(product, warehouse) pair is already present. -/
theorem c7_alert_fires_iff (products : List ProductRow)
    (alerts : List LowStockAlert) (p w : Nat) (qty : Int) :
    check_low_stock products alerts p w qty ≠ alerts ↔
      ∃ pr : ProductRow, products.find? (fun r => r.id == p) = some pr ∧
        qty ≤ pr.reorder_level ∧ 0 < pr.reorder_level ∧
        ∀ a ∈ alerts, ¬(a.product_id = p ∧ a.warehouse_id = w ∧
          a.is_acknowledged = false) := by
  unfold check_low_stock
  cases hf : products.find? (fun r => r.id == p) with
  | none => simp
  | some pr =>
    dsimp only
    have hany : ((alerts.any (fun a =>
        a.product_id == p && a.warehouse_id == w && a.is_acknowledged == false)) = false) ↔
        (∀ a ∈ alerts, ¬(a.product_id = p ∧ a.warehouse_id = w ∧
          a.is_acknowledged = false)) := by
      rw [← Bool.not_eq_true, List.any_eq_true]
      constructor
      · intro hno a ha hc
        exact hno ⟨a, ha, by simp [hc.1, hc.2.1, hc.2.2]⟩
      · rintro hall ⟨a, ha, hpa⟩
        have := hall a ha
        simp only [Bool.and_eq_true, beq_iff_eq] at hpa
        exact this ⟨hpa.1.1, hpa.1.2, hpa.2⟩
    by_cases hc : qty ≤ pr.reorder_level ∧ 0 < pr.reorder_level ∧
        (alerts.any (fun a =>
          a.product_id == p && a.warehouse_id == w && a.is_acknowledged == false)) = false
    · rw [if_pos hc]
      constructor
      · intro _
        exact ⟨pr, rfl, hc.1, hc.2.1, hany.mp hc.2.2⟩
      · intro _
        intro heq
        have : alerts.length = alerts.length + 1 := by
          conv_lhs => rw [← heq]
          simp
        omega
    · rw [if_neg hc]
      constructor
      · intro hne
        exact absurd rfl hne
      · rintro ⟨pr', hpr', h1, h2, h3⟩
        injection hpr' with hpr'
        subst hpr'
        exact absurd ⟨h1, h2, hany.mpr h3⟩ hc

/-! ### The ledger listing endpoint -/

/-- Newest-first ordering on ledger entries (`sort({ created_at: -1 })`). -/
def newestFirst (a b : StockLedger) : Prop := b.created_at ≤ a.created_at

instance : DecidableRel newestFirst := fun a b => Nat.decLe b.created_at a.created_at

instance : IsTotal StockLedger newestFirst :=
  ⟨fun a b => by unfold newestFirst; exact le_total b.created_at a.created_at⟩

instance : IsTrans StockLedger newestFirst :=
  ⟨fun _ _ _ h1 h2 => le_trans h2 h1⟩

/-- GET /api/stock_ledger (index.js:579-587):
`StockLedger.find().sort({ created_at: -1 }).limit(50)` — return the entries
sorted newest-first, truncated to 50; the handler performs no write, so the
state comes back unchanged. -/
def stock_ledger_get (s : St) : List StockLedger × St :=
  ((List.insertionSort newestFirst s.ledger).take 50, s)

/-- C10: the ledger listing returns at most 50 entries, sorted newest-first
by creation timestamp, drawn from the ledger so that every entry it omits is
no newer than every entry it returns, and it mutates no stored state. -/
theorem c10_ledger_listing (s : St) :
    (stock_ledger_get s).2 = s ∧
    (stock_ledger_get s).1.length ≤ 50 ∧
    List.Sorted newestFirst (stock_ledger_get s).1 ∧
    ∃ rest : List StockLedger,
      ((stock_ledger_get s).1 ++ rest).Perm s.ledger ∧
      ∀ a ∈ (stock_ledger_get s).1, ∀ b ∈ rest, b.created_at ≤ a.created_at := by
  refine ⟨rfl, ?_, ?_, ?_⟩
  · show ((List.insertionSort newestFirst s.ledger).take 50).length ≤ 50
    rw [List.length_take]
    exact min_le_left _ _
  · exact (List.sorted_insertionSort newestFirst s.ledger).sublist
      (List.take_sublist _ _)
  · refine ⟨(List.insertionSort newestFirst s.ledger).drop 50, ?_, ?_⟩
    · show ((List.insertionSort newestFirst s.ledger).take 50 ++
        (List.insertionSort newestFirst s.ledger).drop 50).Perm s.ledger
      rw [List.take_append_drop]
      exact List.perm_insertionSort newestFirst s.ledger
    · have hsorted := List.sorted_insertionSort newestFirst s.ledger
      rw [← List.take_append_drop 50 (List.insertionSort newestFirst s.ledger)]
        at hsorted
      have := (List.pairwise_append.mp hsorted).2.2
      intro a ha b hb
      exact this a ha b hb

/-- The operation is non-degenerate: a transfer names two distinct
warehouses (the handlers never special-case a self-transfer, which performs
two mutations of the same pair). -/
def opOK : Op → Prop
  | .transfer _ f t _ => f ≠ t
  | _ => True

/-- C2: whenever a handler execution changes the stored balance of a
(product, warehouse) pair, the entries it appended to the ledger contain
exactly one entry for that pair, and that entry's quantity_after equals the
balance immediately after the mutation. -/
theorem c2_every_mutation_logged (s : St) (op : Op) (hop : opOK op)
    (p w : Nat)
    (hchg : getQty p w (step s op).stock ≠ getQty p w s.stock) :
    ∃ e : StockLedger,
      (((step s op).ledger.drop s.ledger.length).filter
        (fun e => e.product_id == p && e.warehouse_id == w)) = [e] ∧
      e.quantity_after = getQty p w (step s op).stock := by
  cases op with
  | createReceipt p' w' q =>
    exact absurd rfl hchg
  | createDelivery num p' w' q =>
    have hstock : (step s (.createDelivery num p' w' q)).stock = s.stock := by
      by_cases h1 : q ≤ 0
      · simp only [step, stepE, stock_deliveries_post, if_pos h1]
      · by_cases h2 : getQty p' w' s.stock < q
        · simp only [step, stepE, stock_deliveries_post, if_neg h1, if_pos h2]
        · simp only [step, stepE, stock_deliveries_post, if_neg h1, if_neg h2]
    exact absurd (by rw [hstock]) hchg
  | pack id =>
    have hstock : (step s (.pack id)).stock = s.stock := by
      cases hd : findDelivery id s.deliveries with
      | none => simp only [step, stepE, deliveries_pack, hd]
      | some d =>
        by_cases hst : d.status ≠ "Picked"
        · simp only [step, stepE, deliveries_pack, hd, if_pos hst]
        · simp only [step, stepE, deliveries_pack, hd, if_neg hst]
    exact absurd (by rw [hstock]) hchg
  | deleteDelivery id =>
    have hstock : (step s (.deleteDelivery id)).stock = s.stock := by
      cases hd : findDelivery id s.deliveries with
      | none => simp only [step, stepE, deliveries_delete, hd]
      | some d =>
        by_cases hst : d.status = "Delivered"
        · simp only [step, stepE, deliveries_delete, hd, if_pos hst]
        · simp only [step, stepE, deliveries_delete, hd, if_neg hst]
    exact absurd (by rw [hstock]) hchg
  | completeReceipt id =>
    cases hfr : findReceipt id s.receipts with
    | none =>
      have hstock : (step s (.completeReceipt id)).stock = s.stock := by
        simp only [step, stepE, stock_receipts_complete, hfr]
      exact absurd (by rw [hstock]) hchg
    | some sr =>
      cases hfs : findStock sr.product_id sr.warehouse_id s.stock with
      | some d =>
        have hstock : (step s (.completeReceipt id)).stock =
            saveStock sr.product_id sr.warehouse_id (d.quantity + sr.quantity) s.stock := by
          simp only [step, stepE, stock_receipts_complete, hfr, hfs, appendLedger]
        have hkey : p = sr.product_id ∧ w = sr.warehouse_id := by
          by_contra hk
          rw [hstock, getQty_saveStock, if_neg hk] at hchg
          exact absurd rfl hchg
        obtain ⟨hp, hw⟩ := hkey
        subst hp
        subst hw
        refine ⟨⟨sr.product_id, sr.warehouse_id, sr.quantity, d.quantity + sr.quantity,
          "receipt", none, s.now⟩, ?_, ?_⟩
        · simp only [step, stepE, stock_receipts_complete, hfr, hfs, appendLedger]
          rw [List.drop_left]
          simp [List.filter]
        · rw [hstock, getQty_saveStock, if_pos ⟨rfl, rfl⟩]
      | none =>
        have hstock : (step s (.completeReceipt id)).stock =
            s.stock ++ [(⟨sr.product_id, sr.warehouse_id, sr.quantity⟩ : Stock)] := by
          simp only [step, stepE, stock_receipts_complete, hfr, hfs, appendLedger]
        have hkey : p = sr.product_id ∧ w = sr.warehouse_id := by
          by_contra hk
          rw [hstock, getQty_append_absent _ _ _ _ _ _ hfs, if_neg hk] at hchg
          exact absurd rfl hchg
        obtain ⟨hp, hw⟩ := hkey
        subst hp
        subst hw
        refine ⟨⟨sr.product_id, sr.warehouse_id, sr.quantity, sr.quantity,
          "receipt", none, s.now⟩, ?_, ?_⟩
        · simp only [step, stepE, stock_receipts_complete, hfr, hfs, appendLedger]
          rw [List.drop_left]
          simp [List.filter]
        · rw [hstock, getQty_append_absent _ _ _ _ _ _ hfs, if_pos ⟨rfl, rfl⟩]
  | deliver id =>
    cases hd : findDelivery id s.deliveries with
    | none =>
      have hstock : (step s (.deliver id)).stock = s.stock := by
        simp only [step, stepE, deliveries_deliver, hd]
      exact absurd (by rw [hstock]) hchg
    | some d =>
      by_cases hst : d.status ≠ "Packed"
      · have hstock : (step s (.deliver id)).stock = s.stock := by
          simp only [step, stepE, deliveries_deliver, hd, if_pos hst]
        exact absurd (by rw [hstock]) hchg
      · cases hfs : findStock d.product_id d.warehouse_id s.stock with
        | none =>
          have hstock : (step s (.deliver id)).stock = s.stock := by
            simp only [step, stepE, deliveries_deliver, hd, if_neg hst, hfs]
          exact absurd (by rw [hstock]) hchg
        | some doc =>
          by_cases hins : doc.quantity < d.quantity
          · have hstock : (step s (.deliver id)).stock = s.stock := by
              simp only [step, stepE, deliveries_deliver, hd, if_neg hst, hfs, if_pos hins]
            exact absurd (by rw [hstock]) hchg
          · have hstock : (step s (.deliver id)).stock =
                saveStock d.product_id d.warehouse_id
                  (max 0 (doc.quantity - d.quantity)) s.stock := by
              simp only [step, stepE, deliveries_deliver, hd, if_neg hst, hfs,
                if_neg hins, appendLedger]
            have hkey : p = d.product_id ∧ w = d.warehouse_id := by
              by_contra hk
              rw [hstock, getQty_saveStock, if_neg hk] at hchg
              exact absurd rfl hchg
            obtain ⟨hp, hw⟩ := hkey
            subst hp
            subst hw
            refine ⟨⟨d.product_id, d.warehouse_id, -d.quantity,
              max 0 (doc.quantity - d.quantity), "delivery",
              some d.delivery_number, s.now⟩, ?_, ?_⟩
            · simp only [step, stepE, deliveries_deliver, hd, if_neg hst, hfs,
                if_neg hins, appendLedger]
              rw [List.drop_left]
              simp [List.filter]
            · rw [hstock, getQty_saveStock, if_pos ⟨rfl, rfl⟩]
  | adjust p' w' c r =>
    cases hfs : findStock p' w' s.stock with
    | some d =>
      have hstock : (step s (.adjust p' w' c r)).stock =
          saveStock p' w' (d.quantity + c) s.stock := by
        simp only [step, stepE, stock_adjustments_post, hfs, appendLedger]
      have hkey : p = p' ∧ w = w' := by
        by_contra hk
        rw [hstock, getQty_saveStock, if_neg hk] at hchg
        exact absurd rfl hchg
      obtain ⟨hp, hw⟩ := hkey
      subst hp
      subst hw
      refine ⟨⟨p, w, c, d.quantity + c, "adjustment", none, s.now⟩, ?_, ?_⟩
      · simp only [step, stepE, stock_adjustments_post, hfs, appendLedger]
        rw [List.drop_left]
        simp [List.filter]
      · rw [hstock, getQty_saveStock, if_pos ⟨rfl, rfl⟩]
    | none =>
      have hstock : (step s (.adjust p' w' c r)).stock =
          s.stock ++ [(⟨p', w', c⟩ : Stock)] := by
        simp only [step, stepE, stock_adjustments_post, hfs, appendLedger]
      have hkey : p = p' ∧ w = w' := by
        by_contra hk
        rw [hstock, getQty_append_absent _ _ _ _ _ _ hfs, if_neg hk] at hchg
        exact absurd rfl hchg
      obtain ⟨hp, hw⟩ := hkey
      subst hp
      subst hw
      refine ⟨⟨p, w, c, c, "adjustment", none, s.now⟩, ?_, ?_⟩
      · simp only [step, stepE, stock_adjustments_post, hfs, appendLedger]
        rw [List.drop_left]
        simp [List.filter]
      · rw [hstock, getQty_append_absent _ _ _ _ _ _ hfs, if_pos ⟨rfl, rfl⟩]
  | transfer p' f t q =>
    have hft : f ≠ t := hop
    have hfb : (f == t) = false := beq_eq_false_iff_ne.mpr hft
    have htb : (t == f) = false := beq_eq_false_iff_ne.mpr (Ne.symm hft)
    cases hf : findStock p' f s.stock with
    | some d =>
      cases ht : findStock p' t (saveStock p' f (max 0 (d.quantity - q)) s.stock) with
      | some d2 =>
        have hstock : (step s (.transfer p' f t q)).stock =
            saveStock p' t (d2.quantity + q)
              (saveStock p' f (max 0 (d.quantity - q)) s.stock) := by
          simp only [step, stepE, stock_transfers_post, hf, ht, appendLedger]
        have hledger : (step s (.transfer p' f t q)).ledger = s.ledger ++
            [⟨p', f, -q, max 0 (d.quantity - q), "transfer_out", none, s.now⟩,
             ⟨p', t, q, d2.quantity + q, "transfer_in", none, s.now + 1⟩] := by
          simp only [step, stepE, stock_transfers_post, hf, ht, appendLedger]
          simp [List.append_assoc]
        by_cases hkt : p = p' ∧ w = t
        · obtain ⟨hp, hw⟩ := hkt
          subst hp
          subst hw
          refine ⟨⟨p, w, q, d2.quantity + q, "transfer_in", none, s.now + 1⟩, ?_, ?_⟩
          · rw [hledger, List.drop_left]
            simp [List.filter, hfb]
          · rw [hstock, getQty_saveStock, if_pos ⟨rfl, rfl⟩]
        · by_cases hkf : p = p' ∧ w = f
          · obtain ⟨hp, hw⟩ := hkf
            subst hp
            subst hw
            refine ⟨⟨p, w, -q, max 0 (d.quantity - q), "transfer_out", none, s.now⟩,
              ?_, ?_⟩
            · rw [hledger, List.drop_left]
              simp [List.filter, htb]
            · rw [hstock, getQty_saveStock,
                if_neg (fun hk : p = p ∧ w = t => hft hk.2),
                getQty_saveStock, if_pos ⟨rfl, rfl⟩]
          · rw [hstock, getQty_saveStock, if_neg hkt, getQty_saveStock,
              if_neg hkf] at hchg
            exact absurd rfl hchg
      | none =>
        have hstock : (step s (.transfer p' f t q)).stock =
            saveStock p' f (max 0 (d.quantity - q)) s.stock ++
              [(⟨p', t, q⟩ : Stock)] := by
          simp only [step, stepE, stock_transfers_post, hf, ht, appendLedger]
        have hledger : (step s (.transfer p' f t q)).ledger = s.ledger ++
            [⟨p', f, -q, max 0 (d.quantity - q), "transfer_out", none, s.now⟩,
             ⟨p', t, q, q, "transfer_in", none, s.now + 1⟩] := by
          simp only [step, stepE, stock_transfers_post, hf, ht, appendLedger]
          simp [List.append_assoc]
        by_cases hkt : p = p' ∧ w = t
        · obtain ⟨hp, hw⟩ := hkt
          subst hp
          subst hw
          refine ⟨⟨p, w, q, q, "transfer_in", none, s.now + 1⟩, ?_, ?_⟩
          · rw [hledger, List.drop_left]
            simp [List.filter, hfb]
          · rw [hstock, getQty_append_absent _ _ _ _ _ _ ht, if_pos ⟨rfl, rfl⟩]
        · by_cases hkf : p = p' ∧ w = f
          · obtain ⟨hp, hw⟩ := hkf
            subst hp
            subst hw
            refine ⟨⟨p, w, -q, max 0 (d.quantity - q), "transfer_out", none, s.now⟩,
              ?_, ?_⟩
            · rw [hledger, List.drop_left]
              simp [List.filter, htb]
            · rw [hstock, getQty_append_absent _ _ _ _ _ _ ht,
                if_neg (fun hk : p = p ∧ w = t => hft hk.2),
                getQty_saveStock, if_pos ⟨rfl, rfl⟩]
          · rw [hstock, getQty_append_absent _ _ _ _ _ _ ht, if_neg hkt,
              getQty_saveStock, if_neg hkf] at hchg
            exact absurd rfl hchg
    | none =>
      cases ht : findStock p' t (s.stock ++ [(⟨p', f, 0⟩ : Stock)]) with
      | some d2 =>
        have hstock : (step s (.transfer p' f t q)).stock =
            saveStock p' t (d2.quantity + q) (s.stock ++ [(⟨p', f, 0⟩ : Stock)]) := by
          simp only [step, stepE, stock_transfers_post, hf, ht, appendLedger]
        have hledger : (step s (.transfer p' f t q)).ledger = s.ledger ++
            [⟨p', f, -q, 0, "transfer_out", none, s.now⟩,
             ⟨p', t, q, d2.quantity + q, "transfer_in", none, s.now + 1⟩] := by
          simp only [step, stepE, stock_transfers_post, hf, ht, appendLedger]
          simp [List.append_assoc]
        by_cases hkt : p = p' ∧ w = t
        · obtain ⟨hp, hw⟩ := hkt
          subst hp
          subst hw
          refine ⟨⟨p, w, q, d2.quantity + q, "transfer_in", none, s.now + 1⟩, ?_, ?_⟩
          · rw [hledger, List.drop_left]
            simp [List.filter, hfb]
          · rw [hstock, getQty_saveStock, if_pos ⟨rfl, rfl⟩]
        · by_cases hkf : p = p' ∧ w = f
          · obtain ⟨hp, hw⟩ := hkf
            subst hp
            subst hw
            have hq0 : getQty p w (step s (.transfer p w t q)).stock = 0 := by
              rw [hstock, getQty_saveStock,
                if_neg (fun hk : p = p ∧ w = t => hft hk.2),
                getQty_append_absent _ _ _ _ _ _ hf, if_pos ⟨rfl, rfl⟩]
            rw [hq0, getQty_absent _ _ _ hf] at hchg
            exact absurd rfl hchg
          · rw [hstock, getQty_saveStock, if_neg hkt,
              getQty_append_absent _ _ _ _ _ _ hf, if_neg hkf] at hchg
            exact absurd rfl hchg
      | none =>
        have hstock : (step s (.transfer p' f t q)).stock =
            (s.stock ++ [(⟨p', f, 0⟩ : Stock)]) ++ [(⟨p', t, q⟩ : Stock)] := by
          simp only [step, stepE, stock_transfers_post, hf, ht, appendLedger]
        have hledger : (step s (.transfer p' f t q)).ledger = s.ledger ++
            [⟨p', f, -q, 0, "transfer_out", none, s.now⟩,
             ⟨p', t, q, q, "transfer_in", none, s.now + 1⟩] := by
          simp only [step, stepE, stock_transfers_post, hf, ht, appendLedger]
          simp [List.append_assoc]
        by_cases hkt : p = p' ∧ w = t
        · obtain ⟨hp, hw⟩ := hkt
          subst hp
          subst hw
          refine ⟨⟨p, w, q, q, "transfer_in", none, s.now + 1⟩, ?_, ?_⟩
          · rw [hledger, List.drop_left]
            simp [List.filter, hfb]
          · rw [hstock, getQty_append_absent _ _ _ _ _ _ ht, if_pos ⟨rfl, rfl⟩]
        · by_cases hkf : p = p' ∧ w = f
          · obtain ⟨hp, hw⟩ := hkf
            subst hp
            subst hw
            have hq0 : getQty p w (step s (.transfer p w t q)).stock = 0 := by
              rw [hstock, getQty_append_absent _ _ _ _ _ _ ht,
                if_neg (fun hk : p = p ∧ w = t => hft hk.2),
                getQty_append_absent _ _ _ _ _ _ hf, if_pos ⟨rfl, rfl⟩]
            rw [hq0, getQty_absent _ _ _ hf] at hchg
            exact absurd rfl hchg
          · rw [hstock, getQty_append_absent _ _ _ _ _ _ ht, if_neg hkt,
              getQty_append_absent _ _ _ _ _ _ hf, if_neg hkf] at hchg
            exact absurd rfl hchg

/-- C2 witness: an adjustment of +5 on the empty database changes the balance
of (1, 2) and the handler's appended ledger entries for that pair are exactly
one entry whose quantity_after is the new balance. -/
theorem c2_every_mutation_logged_witness :
    ∃ e : StockLedger,
      (((step St.empty (.adjust 1 2 5 none)).ledger.drop St.empty.ledger.length).filter
        (fun e => e.product_id == 1 && e.warehouse_id == 2)) = [e] ∧
      e.quantity_after = getQty 1 2 (step St.empty (.adjust 1 2 5 none)).stock :=
  c2_every_mutation_logged St.empty (.adjust 1 2 5 none) trivial 1 2 (by decide)

end StockMaster
